import Mathlib

/-!
# Verification of the API resilience layer of Project Drishti

This development embeds the crowd-prediction resilience layer of the
repository (circuit breaker, multi-level cache, API key rotation, batch
coordinator, fallback estimation chain and the mitigation orchestrator)
as executable Lean definitions and proves the documented properties
about them.

The Python modules implementing this subsystem (`crowd_predictor.py`,
`api_mitigation_service.py`, `batch_api_service.py`) are not part of the
source tree; the layer is specified by the rate-limit mitigation
documentation.  Components whose code is absent are therefore modelled
from the specification, faithful to its words; the local
computer-vision people counter `estimate_people_count` is embedded from
the code snippet reproduced in `RATE_LIMIT_MITIGATION.md`.

Time is modelled as a natural number of seconds supplied by an
injectable clock; machine floats do not occur (contour areas are exact
rationals).
-/

namespace Drishti

/-! ## Data model -/

/-- Modelled from the spec: the `source` field of an `AnalysisResult`,
one of api | cache | cv | estimate. -/
inductive Source
  | api
  | cache
  | cv
  | estimate
deriving DecidableEq, Repr

/-- Modelled from the spec: the `data_quality` field
(excellent / good / fair / estimated). -/
inductive Quality
  | excellent
  | good
  | fair
  | estimated
deriving DecidableEq, Repr

/-- Modelled from the spec: the `confidence_level` field. -/
inductive Conf
  | high
  | mid
  | low
deriving DecidableEq, Repr

/-- Modelled from the spec: `AnalysisResult`, the uniform value type
returned to all callers regardless of which path produced it. -/
structure AnalysisResult where
  people_count : Nat
  confidence_level : Conf
  source : Source
  data_quality : Quality
  response_time : Nat
deriving DecidableEq, Repr

/-! ## Multi-level cache

Modelled from the spec §4.4: three tiers (fresh 5 min, medium 15 min,
long 60 min) keyed by request fingerprint; `put` stores into all three
tiers simultaneously, `get` probes fresh → medium → long and returns the
first non-expired hit with the serving tier. -/

/-- Fresh-tier validity in seconds (5 minutes). -/
def freshDuration : Nat := 300

/-- Medium-tier validity in seconds (15 minutes). -/
def mediumDuration : Nat := 900

/-- Long-tier validity in seconds (60 minutes). -/
def longDuration : Nat := 3600

/-- The cache tier that served a hit. -/
inductive Tier
  | fresh
  | medium
  | long
deriving DecidableEq, Repr

/-- Tier-specific validity duration. -/
def tierDuration : Tier → Nat
  | Tier.fresh => freshDuration
  | Tier.medium => mediumDuration
  | Tier.long => longDuration

/-- Modelled from the spec: the `data_quality` reported for a hit of
each tier (fresh = excellent, medium = good, long = fair). -/
def tierQuality : Tier → Quality
  | Tier.fresh => Quality.excellent
  | Tier.medium => Quality.good
  | Tier.long => Quality.fair

/-- A stored cache entry: the value and its creation time. -/
structure CEntry (α : Type) where
  value : α
  created_at : Nat
deriving DecidableEq, Repr

/-- One cache level: an association list from fingerprint to entry. -/
abbrev Level (α : Type) := List (Nat × CEntry α)

/-- Write-through for one level: replaces any entry for the same
fingerprint. -/
def levelPut {α : Type} (lv : Level α) (fp : Nat) (v : α) (now : Nat) :
    Level α :=
  (fp, ⟨v, now⟩) :: lv.filter (fun p => p.1 ≠ fp)

/-- Look up the raw entry stored at a fingerprint in one level. -/
def lookupLevel {α : Type} (lv : Level α) (fp : Nat) : Option (CEntry α) :=
  (lv.find? (fun p => p.1 = fp)).map (·.2)

/-- Read from one level under a given validity duration: an entry is
only returned while `now < created_at + dur`; expired entries are never
returned. -/
def levelGet {α : Type} (lv : Level α) (fp : Nat) (dur now : Nat) :
    Option α :=
  match lookupLevel lv fp with
  | some e => if now < e.created_at + dur then some e.value else none
  | none => none

/-- Modelled from the spec: the three-tier multi-level cache. -/
structure MultiCache (α : Type) where
  level1 : Level α
  level2 : Level α
  level3 : Level α
deriving DecidableEq, Repr

/-- The empty cache. -/
def MultiCache.empty {α : Type} : MultiCache α := ⟨[], [], []⟩

/-- The level backing a given tier. -/
def MultiCache.levelFor {α : Type} (c : MultiCache α) : Tier → Level α
  | Tier.fresh => c.level1
  | Tier.medium => c.level2
  | Tier.long => c.level3

/-- `put` stores the value simultaneously into all three tiers. -/
def MultiCache.put {α : Type} (c : MultiCache α) (fp : Nat) (v : α)
    (now : Nat) : MultiCache α :=
  ⟨levelPut c.level1 fp v now, levelPut c.level2 fp v now,
    levelPut c.level3 fp v now⟩

/-- `get` with explicit per-tier durations: probes fresh → medium →
long and returns the first non-expired hit with the tier that served
it. -/
def MultiCache.getD {α : Type} (c : MultiCache α) (d1 d2 d3 fp now : Nat) :
    Option (α × Tier) :=
  match levelGet c.level1 fp d1 now with
  | some v => some (v, Tier.fresh)
  | none =>
    match levelGet c.level2 fp d2 now with
    | some v => some (v, Tier.medium)
    | none =>
      match levelGet c.level3 fp d3 now with
      | some v => some (v, Tier.long)
      | none => none

/-- `get` under the normal tier durations. -/
def MultiCache.get {α : Type} (c : MultiCache α) (fp now : Nat) :
    Option (α × Tier) :=
  c.getD freshDuration mediumDuration longDuration fp now

/-- Modelled from the spec: relaxed tier durations used while emergency
mode is active ("extended caching: uses cache for 15+ minutes",
"effectively extending fresh-tier validity"). -/
def relaxedFresh : Nat := 900

/-- Relaxed medium-tier validity under emergency mode. -/
def relaxedMedium : Nat := 3600

/-- Relaxed long-tier validity under emergency mode. -/
def relaxedLong : Nat := 7200

/-- `get` under the relaxed (emergency mode) tier durations. -/
def MultiCache.getRelaxed {α : Type} (c : MultiCache α) (fp now : Nat) :
    Option (α × Tier) :=
  c.getD relaxedFresh relaxedMedium relaxedLong fp now

/-! Basic cache lemmas shared by the later developments. -/

lemma lookupLevel_levelPut_same {α : Type} (lv : Level α) (fp : Nat)
    (v : α) (t : Nat) :
    lookupLevel (levelPut lv fp v t) fp = some ⟨v, t⟩ := by
  simp [lookupLevel, levelPut, List.find?]

lemma levelGet_levelPut_same {α : Type} (lv : Level α) (fp : Nat)
    (v : α) (t dur now : Nat) :
    levelGet (levelPut lv fp v t) fp dur now =
      if now < t + dur then some v else none := by
  simp [levelGet, lookupLevel_levelPut_same]

lemma levelGet_some {α : Type} {lv : Level α} {fp dur now : Nat} {v : α}
    (h : levelGet lv fp dur now = some v) :
    ∃ e : CEntry α, lookupLevel lv fp = some e ∧ e.value = v ∧
      now < e.created_at + dur := by
  unfold levelGet at h
  cases hl : lookupLevel lv fp with
  | none => simp [hl] at h
  | some e =>
    rw [hl] at h
    by_cases hn : now < e.created_at + dur
    · refine ⟨e, rfl, ?_, hn⟩
      simpa [hn] using h
    · simp [hn] at h

lemma get_put_fresh {α : Type} (c : MultiCache α) (fp : Nat) (v : α)
    (t now : Nat) (h : now < t + freshDuration) :
    (c.put fp v t).get fp now = some (v, Tier.fresh) := by
  simp [MultiCache.get, MultiCache.getD, MultiCache.put,
    levelGet_levelPut_same, h]

lemma get_put_medium {α : Type} (c : MultiCache α) (fp : Nat) (v : α)
    (t now : Nat) (h1 : t + freshDuration ≤ now)
    (h2 : now < t + mediumDuration) :
    (c.put fp v t).get fp now = some (v, Tier.medium) := by
  have h1' : ¬ now < t + freshDuration := not_lt.mpr h1
  simp [MultiCache.get, MultiCache.getD, MultiCache.put,
    levelGet_levelPut_same, h1', h2]

lemma get_not_expired {α : Type} {c : MultiCache α} {fp now : Nat}
    {v : α} {tier : Tier} (h : c.get fp now = some (v, tier)) :
    ∃ e : CEntry α, lookupLevel (c.levelFor tier) fp = some e ∧
      e.value = v ∧ now < e.created_at + tierDuration tier := by
  unfold MultiCache.get MultiCache.getD at h
  cases h1 : levelGet c.level1 fp freshDuration now with
  | some w =>
    rw [h1] at h
    simp only [Option.some.injEq, Prod.mk.injEq] at h
    obtain ⟨hv, ht⟩ := h
    subst hv; subst ht
    obtain ⟨e, he, hev, hlt⟩ := levelGet_some h1
    exact ⟨e, he, hev, hlt⟩
  | none =>
    rw [h1] at h
    cases h2 : levelGet c.level2 fp mediumDuration now with
    | some w =>
      rw [h2] at h
      simp only [Option.some.injEq, Prod.mk.injEq] at h
      obtain ⟨hv, ht⟩ := h
      subst hv; subst ht
      obtain ⟨e, he, hev, hlt⟩ := levelGet_some h2
      exact ⟨e, he, hev, hlt⟩
    | none =>
      rw [h2] at h
      cases h3 : levelGet c.level3 fp longDuration now with
      | some w =>
        rw [h3] at h
        simp only [Option.some.injEq, Prod.mk.injEq] at h
        obtain ⟨hv, ht⟩ := h
        subst hv; subst ht
        obtain ⟨e, he, hev, hlt⟩ := levelGet_some h3
        exact ⟨e, he, hev, hlt⟩
      | none => rw [h3] at h; exact absurd h (by simp)

/-- C5: `put(fingerprint, value)` stores the value into all three tiers;
a `get` of the same fingerprint within the fresh-tier duration (5 min)
returns the identical value with tier = fresh; a `get` when the entry is
older than the fresh-tier duration but younger than the medium-tier
duration (15 min) serves it from the medium tier, not fresh; reads probe
fresh → medium → long and never return an entry whose expiry for the
queried tier has passed; a full miss across all tiers returns none. -/
theorem C5_cache_tiers :
    (∀ (α : Type) (c : MultiCache α) (fp : Nat) (v : α) (t : Nat),
        lookupLevel ((c.put fp v t).level1) fp = some ⟨v, t⟩ ∧
        lookupLevel ((c.put fp v t).level2) fp = some ⟨v, t⟩ ∧
        lookupLevel ((c.put fp v t).level3) fp = some ⟨v, t⟩) ∧
    (∀ (α : Type) (c : MultiCache α) (fp : Nat) (v : α) (t now : Nat),
        now < t + freshDuration →
        (c.put fp v t).get fp now = some (v, Tier.fresh)) ∧
    (∀ (α : Type) (c : MultiCache α) (fp : Nat) (v : α) (t now : Nat),
        t + freshDuration ≤ now → now < t + mediumDuration →
        (c.put fp v t).get fp now = some (v, Tier.medium)) ∧
    (∀ (α : Type) (c : MultiCache α) (fp now : Nat) (v : α) (tier : Tier),
        c.get fp now = some (v, tier) →
        ∃ e : CEntry α, lookupLevel (c.levelFor tier) fp = some e ∧
          e.value = v ∧ now < e.created_at + tierDuration tier) ∧
    (∀ fp now : Nat, (MultiCache.empty (α := Nat)).get fp now = none) := by
  refine ⟨?_, ?_, ?_, ?_, ?_⟩
  · intro α c fp v t
    exact ⟨lookupLevel_levelPut_same _ _ _ _, lookupLevel_levelPut_same _ _ _ _,
      lookupLevel_levelPut_same _ _ _ _⟩
  · intro α c fp v t now h
    exact get_put_fresh c fp v t now h
  · intro α c fp v t now h1 h2
    exact get_put_medium c fp v t now h1 h2
  · intro α c fp now v tier h
    exact get_not_expired h
  · intro fp now
    simp [MultiCache.empty, MultiCache.get, MultiCache.getD, levelGet,
      lookupLevel]

/-- Witness for C5 at concrete inputs: a value written at time 0 is read
back from the fresh tier at time 100 and from the medium tier at time
600. -/
theorem C5_cache_tiers_witness :
    ((MultiCache.empty.put 7 42 0).get 7 100 = some (42, Tier.fresh)) ∧
    ((MultiCache.empty.put 7 42 0).get 7 600 = some (42, Tier.medium)) ∧
    (∃ e : CEntry Nat,
      lookupLevel (((MultiCache.empty.put 7 42 0) :
          MultiCache Nat).levelFor Tier.fresh) 7 = some e ∧
        e.value = 42 ∧ 100 < e.created_at + tierDuration Tier.fresh) :=
  ⟨C5_cache_tiers.2.1 Nat MultiCache.empty 7 42 0 100 (by decide),
   C5_cache_tiers.2.2.1 Nat MultiCache.empty 7 42 0 600 (by decide) (by decide),
   C5_cache_tiers.2.2.2.1 Nat (MultiCache.empty.put 7 42 0) 7 100 42
     Tier.fresh (by decide)⟩

/-! ## Rate tracker and key rotator

Modelled from the spec §4.1–§4.2: a sliding-window request counter per
key, and a round-robin key selector that skips blacklisted and
rate-denied keys. -/

/-- Sliding-window length of the rate tracker, in seconds. -/
def rateWindow : Nat := 60

/-- Modelled from the spec: blacklist duration after a rate-limit
signal (default 5 minutes). -/
def blacklistDuration : Nat := 300

/-- Modelled from the spec: default per-service request quota per
minute (10 for the vision API). -/
def maxPerMinute : Nat := 10

/-- Modelled from the spec: `ApiKeyRecord` with its blacklist timestamp
and sliding window of request timestamps. -/
structure ApiKeyRecord where
  key_id : Nat
  blacklisted_until : Option Nat
  request_timestamps : List Nat
deriving DecidableEq, Repr

/-- Rate tracker read: sending is allowed while the sliding window
holds fewer than `maxPerMin` timestamps; no side effects. -/
def canSend (maxPerMin : Nat) (rec : ApiKeyRecord) (now : Nat) : Bool :=
  decide ((rec.request_timestamps.filter
    (fun t => decide (now < t + rateWindow))).length < maxPerMin)

/-- Rate tracker write: appends the current timestamp and prunes
entries older than the window. -/
def recordSend (rec : ApiKeyRecord) (now : Nat) : ApiKeyRecord :=
  { rec with request_timestamps :=
      now :: rec.request_timestamps.filter (fun t => decide (now < t + rateWindow)) }

/-- A key whose `blacklisted_until` lies in the future is blocked. -/
def notBlacklisted (rec : ApiKeyRecord) (now : Nat) : Bool :=
  match rec.blacklisted_until with
  | none => true
  | some b => decide (b ≤ now)

/-- A key is eligible when it is not blacklisted and the rate tracker
allows sending. -/
def eligibleKey (maxPerMin : Nat) (rec : ApiKeyRecord) (now : Nat) : Bool :=
  notBlacklisted rec now && canSend maxPerMin rec now

/-- Modelled from the spec: the per-service key pool with a round-robin
cursor. -/
structure Rotator where
  pool : List ApiKeyRecord
  rrIndex : Nat
deriving DecidableEq, Repr

/-- The pool viewed in round-robin order starting at the cursor. -/
def rotatedPool (r : Rotator) : List ApiKeyRecord :=
  r.pool.drop (r.rrIndex % r.pool.length) ++
    r.pool.take (r.rrIndex % r.pool.length)

/-- `selectKey`: first eligible key in round-robin order, none when no
key is eligible. -/
def selectKey (r : Rotator) (maxPerMin now : Nat) : Option ApiKeyRecord :=
  (rotatedPool r).find? (fun rec => eligibleKey maxPerMin rec now)

/-- `reportRateLimited(key_id)` sets the key's blacklist to
`now + blacklistDuration`. -/
def reportRateLimited (r : Rotator) (kid now : Nat) : Rotator :=
  { r with pool := r.pool.map (fun rec =>
      if rec.key_id = kid then
        { rec with blacklisted_until := some (now + blacklistDuration) }
      else rec) }

/-- `reportSuccess(key_id)` clears any blacklist immediately. -/
def reportSuccess (r : Rotator) (kid : Nat) : Rotator :=
  { r with pool := r.pool.map (fun rec =>
      if rec.key_id = kid then { rec with blacklisted_until := none }
      else rec) }

lemma mem_rotatedPool {r : Rotator} {x : ApiKeyRecord} :
    x ∈ rotatedPool r ↔ x ∈ r.pool := by
  unfold rotatedPool
  constructor
  · intro h
    rcases List.mem_append.mp h with h' | h'
    · exact List.mem_of_mem_drop h'
    · exact List.mem_of_mem_take h'
  · intro h
    have := List.take_append_drop (r.rrIndex % r.pool.length) r.pool
    rw [← this] at h
    rcases List.mem_append.mp h with h' | h'
    · exact List.mem_append.mpr (Or.inr h')
    · exact List.mem_append.mpr (Or.inl h')

lemma selectKey_eligible {r : Rotator} {m now : Nat} {rec : ApiKeyRecord}
    (h : selectKey r m now = some rec) : eligibleKey m rec now = true := by
  unfold selectKey at h
  simpa using List.find?_some h

lemma selectKey_mem {r : Rotator} {m now : Nat} {rec : ApiKeyRecord}
    (h : selectKey r m now = some rec) : rec ∈ r.pool :=
  mem_rotatedPool.mp (List.mem_of_find?_eq_some h)

lemma reportRateLimited_blacklists {r : Rotator} {kid t0 : Nat}
    {rec : ApiKeyRecord} (hmem : rec ∈ (reportRateLimited r kid t0).pool)
    (hid : rec.key_id = kid) :
    rec.blacklisted_until = some (t0 + blacklistDuration) := by
  unfold reportRateLimited at hmem
  simp only [List.mem_map] at hmem
  obtain ⟨a, _, ha⟩ := hmem
  by_cases hk : a.key_id = kid
  · simp only [hk, if_true] at ha
    rw [← ha]
  · simp only [hk, if_false] at ha
    subst ha
    exact absurd hid hk

lemma reportSuccess_clears {r : Rotator} {kid : Nat} {rec : ApiKeyRecord}
    (hmem : rec ∈ (reportSuccess r kid).pool) (hid : rec.key_id = kid) :
    rec.blacklisted_until = none := by
  unfold reportSuccess at hmem
  simp only [List.mem_map] at hmem
  obtain ⟨a, _, ha⟩ := hmem
  by_cases hk : a.key_id = kid
  · simp only [hk, if_true] at ha
    rw [← ha]
  · simp only [hk, if_false] at ha
    subst ha
    exact absurd hid hk

/-- C6: a key with `blacklisted_until > now` is never selected; after
`reportRateLimited(A)` at time `t0`, `selectKey` never returns a key
with id `A` before `t0 + blacklistDuration`; `selectKey` returns some
eligible key of the pool whenever one exists (none only when no key is
eligible); and `reportSuccess(A)` clears `A`'s blacklist immediately. -/
theorem C6_key_rotation :
    (∀ (r : Rotator) (m now : Nat) (rec : ApiKeyRecord) (b : Nat),
        selectKey r m now = some rec →
        rec.blacklisted_until = some b → b ≤ now) ∧
    (∀ (r : Rotator) (kid t0 m now : Nat) (rec : ApiKeyRecord),
        now < t0 + blacklistDuration →
        selectKey (reportRateLimited r kid t0) m now = some rec →
        rec.key_id ≠ kid) ∧
    (∀ (r : Rotator) (m now : Nat),
        (∃ rec ∈ r.pool, eligibleKey m rec now = true) →
        (selectKey r m now).isSome = true) ∧
    (∀ (r : Rotator) (kid : Nat) (rec : ApiKeyRecord),
        rec ∈ (reportSuccess r kid).pool → rec.key_id = kid →
        rec.blacklisted_until = none) := by
  refine ⟨?_, ?_, ?_, ?_⟩
  · intro r m now rec b hsel hb
    have he := selectKey_eligible hsel
    simp only [eligibleKey, notBlacklisted, hb, Bool.and_eq_true,
      decide_eq_true_eq] at he
    exact he.1
  · intro r kid t0 m now rec hnow hsel hid
    have hmem := selectKey_mem hsel
    have hbl := reportRateLimited_blacklists hmem hid
    have he := selectKey_eligible hsel
    simp only [eligibleKey, notBlacklisted, hbl, Bool.and_eq_true,
      decide_eq_true_eq] at he
    omega
  · intro r m now ⟨rec, hmem, hel⟩
    unfold selectKey
    rw [List.find?_isSome]
    exact ⟨rec, mem_rotatedPool.mpr hmem, hel⟩
  · intro r kid rec hmem hid
    exact reportSuccess_clears hmem hid

/-- Witness for C6 at concrete inputs: with a two-key pool, blacklisting
key 0 at time 0 means `selectKey` at time 100 does not return key 0
(it returns key 1), and an eligible key forces a selection. -/
theorem C6_key_rotation_witness :
    ((selectKey (reportRateLimited ⟨[⟨0, none, []⟩, ⟨1, none, []⟩], 0⟩ 0 0)
        maxPerMinute 100 = some ⟨1, none, []⟩) → (1 : Nat) ≠ 0) ∧
    (selectKey (reportRateLimited ⟨[⟨0, none, []⟩, ⟨1, none, []⟩], 0⟩ 0 0)
        maxPerMinute 100).isSome = true :=
  ⟨fun h => C6_key_rotation.2.1
      ⟨[⟨0, none, []⟩, ⟨1, none, []⟩], 0⟩ 0 0 maxPerMinute 100
      ⟨1, none, []⟩ (by decide) h,
   C6_key_rotation.2.2.1
      (reportRateLimited ⟨[⟨0, none, []⟩, ⟨1, none, []⟩], 0⟩ 0 0)
      maxPerMinute 100 ⟨⟨1, none, []⟩, by decide, by decide⟩⟩

/-! ## Circuit breaker

Modelled from the spec §4.3: a per-upstream-service state machine with
states CLOSED, OPEN and HALF_OPEN, initial CLOSED, failure threshold
`max_failures` (default 3) and cooldown `timeout` (default 300 s).
The breaker state is consulted at call start (the conservative
interpretation §9 calls for). -/

/-- The circuit state of one upstream service. -/
inductive CBState
  | closed
  | opened
  | halfOpen
deriving DecidableEq, Repr

/-- Modelled from the spec: failures before the circuit opens
(`self.max_failures = 3`). -/
def max_failures : Nat := 3

/-- Modelled from the spec: circuit open time in seconds
(`circuit['timeout'] = 300`). -/
def cbTimeout : Nat := 300

/-- Per-service breaker bookkeeping. -/
structure Breaker where
  state : CBState
  failures : Nat
  opened_at : Nat
deriving DecidableEq, Repr

/-- The initial breaker: CLOSED with no recorded failures. -/
def cbInit : Breaker := ⟨CBState.closed, 0, 0⟩

/-- Lazy OPEN → HALF_OPEN transition, applied at call start: once
`now - opened_at >= timeout` the breaker allows one probe. -/
def cbElapse (cb : Breaker) (now : Nat) : Breaker :=
  if cb.state = CBState.opened ∧ cb.opened_at + cbTimeout ≤ now then
    { cb with state := CBState.halfOpen }
  else cb

/-- A successful call closes the circuit and resets the failure
counter. -/
def cbOnSuccess (cb : Breaker) : Breaker :=
  { cb with state := CBState.closed, failures := 0 }

/-- A failed call: in CLOSED the counter increments and reaching
`max_failures` opens the circuit recording `opened_at`; a failed
HALF_OPEN probe reopens the circuit and resets `opened_at`. -/
def cbOnFailure (cb : Breaker) (now : Nat) : Breaker :=
  match cb.state with
  | CBState.closed =>
    if max_failures ≤ cb.failures + 1 then
      ⟨CBState.opened, cb.failures + 1, now⟩
    else
      { cb with failures := cb.failures + 1 }
  | CBState.halfOpen => { cb with state := CBState.opened, opened_at := now }
  | CBState.opened => cb

/-- One guarded call through the breaker: after the lazy cooldown
check, an OPEN circuit short-circuits without attempting the network
(second component false); otherwise the call is attempted and the given
outcome is reported.  Returns the new breaker and whether the network
was attempted. -/
def cbCall (cb : Breaker) (now : Nat) (outcome : Bool) : Breaker × Bool :=
  match (cbElapse cb now).state with
  | CBState.opened => (cbElapse cb now, false)
  | _ => (if outcome then cbOnSuccess (cbElapse cb now)
          else cbOnFailure (cbElapse cb now) now, true)

/-- The transitions the spec allows: staying put, CLOSED→OPEN,
OPEN→HALF_OPEN, HALF_OPEN→CLOSED and HALF_OPEN→OPEN. -/
def cbEdge (a b : CBState) : Prop :=
  a = b ∨
  (a = CBState.closed ∧ b = CBState.opened) ∨
  (a = CBState.opened ∧ b = CBState.halfOpen) ∨
  (a = CBState.halfOpen ∧ b = CBState.closed) ∨
  (a = CBState.halfOpen ∧ b = CBState.opened)

lemma cbElapse_state (cb : Breaker) (now : Nat) :
    (cbElapse cb now).state = cb.state ∨
      (cb.state = CBState.opened ∧ (cbElapse cb now).state = CBState.halfOpen ∧
        cb.opened_at + cbTimeout ≤ now) := by
  unfold cbElapse
  by_cases h : cb.state = CBState.opened ∧ cb.opened_at + cbTimeout ≤ now
  · exact Or.inr ⟨h.1, by simp [h], h.2⟩
  · simp [h]

lemma cbElapse_closed {cb : Breaker} (h : cb.state = CBState.closed)
    (now : Nat) : cbElapse cb now = cb := by
  unfold cbElapse
  simp [h]

/-- C3: the circuit starts CLOSED; the cooldown check only performs
OPEN→HALF_OPEN (and only once the cooldown has elapsed); reporting an
outcome only performs the edges CLOSED→OPEN (exactly on reaching the
failure threshold), HALF_OPEN→CLOSED (successful probe) and
HALF_OPEN→OPEN (failed probe); and in HALF_OPEN exactly one probe call
is allowed: the probe is attempted and the resulting state is no longer
HALF_OPEN. -/
theorem C3_circuit_transitions :
    cbInit.state = CBState.closed ∧
    (∀ (cb : Breaker) (now : Nat),
        cbEdge cb.state (cbElapse cb now).state ∧
        ((cbElapse cb now).state ≠ cb.state →
          cb.state = CBState.opened ∧
          (cbElapse cb now).state = CBState.halfOpen ∧
          cb.opened_at + cbTimeout ≤ now)) ∧
    (∀ (cb : Breaker) (now : Nat) (outcome : Bool),
        cbEdge (cbElapse cb now).state (cbCall cb now outcome).1.state) ∧
    (∀ (cb : Breaker) (now : Nat),
        cb.state = CBState.closed →
        ((cbOnFailure cb now).state = CBState.opened ↔
          max_failures ≤ cb.failures + 1)) ∧
    (∀ (cb : Breaker) (now : Nat) (outcome : Bool),
        (cbElapse cb now).state = CBState.halfOpen →
        (cbCall cb now outcome).2 = true ∧
        (cbCall cb now outcome).1.state ≠ CBState.halfOpen) := by
  refine ⟨rfl, ?_, ?_, ?_, ?_⟩
  · intro cb now
    rcases cbElapse_state cb now with h | ⟨h1, h2, h3⟩
    · exact ⟨Or.inl h.symm, fun hc => absurd h.symm (Ne.symm hc)⟩
    · exact ⟨Or.inr (Or.inr (Or.inl ⟨h1, h2⟩)),
        fun _ => ⟨h1, h2, h3⟩⟩
  · intro cb now outcome
    unfold cbCall
    cases hs : (cbElapse cb now).state with
    | opened => simp [hs, cbEdge]
    | closed =>
      cases outcome with
      | true => simp [hs, cbOnSuccess, cbEdge]
      | false =>
        simp only [hs]
        unfold cbOnFailure
        rw [hs]
        by_cases hf : max_failures ≤ (cbElapse cb now).failures + 1
        · simp [hf, cbEdge, hs]
        · simp [hf, cbEdge, hs]
    | halfOpen =>
      cases outcome with
      | true => simp [hs, cbOnSuccess, cbEdge]
      | false =>
        simp only [hs]
        unfold cbOnFailure
        rw [hs]
        simp [cbEdge, hs]
  · intro cb now hst
    unfold cbOnFailure
    rw [hst]
    by_cases hf : max_failures ≤ cb.failures + 1
    · simp [hf]
    · simp [hf]
  · intro cb now outcome hs
    unfold cbCall
    rw [hs]
    cases outcome with
    | true => simp [hs, cbOnSuccess]
    | false =>
      unfold cbOnFailure
      rw [hs]
      simp [hs]

/-- Witness for C3: a breaker opened at time 0 elapses to HALF_OPEN at
time 300, a successful probe there closes the circuit, and from a
CLOSED breaker with two recorded failures a third failure opens it. -/
theorem C3_circuit_transitions_witness :
    cbEdge (cbElapse ⟨CBState.opened, 3, 0⟩ 300).state
      (cbCall ⟨CBState.opened, 3, 0⟩ 300 true).1.state ∧
    ((cbOnFailure ⟨CBState.closed, 2, 0⟩ 7).state = CBState.opened ↔
      max_failures ≤ 2 + 1) ∧
    ((cbCall ⟨CBState.opened, 3, 0⟩ 300 true).2 = true ∧
      (cbCall ⟨CBState.opened, 3, 0⟩ 300 true).1.state ≠ CBState.halfOpen) :=
  ⟨C3_circuit_transitions.2.2.1 ⟨CBState.opened, 3, 0⟩ 300 true,
   C3_circuit_transitions.2.2.2.1 ⟨CBState.closed, 2, 0⟩ 7 rfl,
   C3_circuit_transitions.2.2.2.2 ⟨CBState.opened, 3, 0⟩ 300 true (by decide)⟩

/-! ## Batch coordinator

Modelled from the spec §4.5 and the batch-processing documentation: a
per-service window accumulates pending entries and flushes either when
it holds `max_batch_size` entries (default 5) or when `batch_timeout`
(default 2 s) has elapsed since the first entry was accepted, whichever
comes first.  On flush the fragments are combined into one upstream
call, and the combined response is split back in input order; a failed
or unparseable combined call resolves every member via the fallback
estimator. -/

/-- Modelled from the spec: maximum requests per batch
(`max_batch_size = 5`). -/
def max_batch_size : Nat := 5

/-- Modelled from the spec: wait time for more requests, in seconds
(`batch_timeout = 2.0`). -/
def batch_timeout : Nat := 2

/-- A pending batch entry: the caller's request id and its prompt
fragment (the distinguishable per-request marker). -/
structure BEntry where
  requestId : Nat
  fragment : Nat
deriving DecidableEq, Repr

/-- A batch window: its accepted entries in input order and the time
the first entry was accepted. -/
structure BWindow where
  entries : List BEntry
  firstAt : Nat
deriving DecidableEq, Repr

/-- The response delivered to one caller: its parsed segment of a
successful combined call, or a fallback estimate. -/
inductive BResp
  | api (v : Nat)
  | fallback (v : Nat)
deriving DecidableEq, Repr

/-- Modelled from the spec: the bounded last-resort estimate used when
a window's combined call fails. -/
def batchFallbackVal : Nat := 10

/-- The combined upstream call: a list of fragments in, and either an
ordered list of per-fragment answers or a failure. -/
abbrev BUpstream := List Nat → Option (List Nat)

/-- Split a combined response back into one resolution per entry, in
input order: a successful response of the right arity is demultiplexed
segment by segment; a failed call, or a response that does not parse
into one segment per entry, resolves every member via the fallback. -/
def splitResponse (es : List BEntry) (resp : Option (List Nat)) :
    List (Nat × BResp) :=
  match resp with
  | some rs =>
    if rs.length = es.length then
      (es.zip rs).map (fun p => (p.1.requestId, BResp.api p.2))
    else
      es.map (fun e => (e.requestId, BResp.fallback batchFallbackVal))
  | none =>
    es.map (fun e => (e.requestId, BResp.fallback batchFallbackVal))

/-- Flush one window through one combined upstream call and split the
response. -/
def flushWindow (w : BWindow) (up : BUpstream) : List (Nat × BResp) :=
  splitResponse w.entries (up (w.entries.map BEntry.fragment))

lemma splitResponse_none (es : List BEntry) :
    splitResponse es none =
      es.map (fun e => (e.requestId, BResp.fallback batchFallbackVal)) :=
  rfl

lemma splitResponse_some_good (es : List BEntry) (rs : List Nat)
    (hl : rs.length = es.length) :
    splitResponse es (some rs) =
      (es.zip rs).map (fun p => (p.1.requestId, BResp.api p.2)) := by
  simp [splitResponse, hl]

lemma splitResponse_some_bad (es : List BEntry) (rs : List Nat)
    (hl : rs.length ≠ es.length) :
    splitResponse es (some rs) =
      es.map (fun e => (e.requestId, BResp.fallback batchFallbackVal)) := by
  simp [splitResponse, hl]

/-- The batch coordinator state: the open window (if any), every
resolution delivered so far, and a counter of upstream calls issued. -/
structure BatchState where
  current : Option BWindow
  resolutions : List (Nat × BResp)
  upCalls : Nat
deriving DecidableEq, Repr

/-- The initial coordinator state. -/
def batchInit : BatchState := ⟨none, [], 0⟩

/-- Flush a window: one upstream call, and its resolutions are
delivered. -/
def flushInto (st : BatchState) (w : BWindow) (up : BUpstream) :
    BatchState :=
  ⟨none, st.resolutions ++ flushWindow w up, st.upCalls + 1⟩

/-- Open a new window holding one entry (flushing immediately in the
degenerate configuration of a one-entry batch limit). -/
def startWindow (st : BatchState) (up : BUpstream) (t : Nat) (e : BEntry) :
    BatchState :=
  if max_batch_size ≤ 1 then flushInto st ⟨[e], t⟩ up
  else { st with current := some ⟨[e], t⟩ }

/-- Admit one entry at time `t`: an elapsed window (timeout reached) is
flushed first and a new window opened; otherwise the entry joins the
window, which flushes at once when it reaches `max_batch_size`. -/
def enqueue (st : BatchState) (up : BUpstream) (t : Nat) (e : BEntry) :
    BatchState :=
  match st.current with
  | none => startWindow st up t e
  | some w =>
    if w.firstAt + batch_timeout ≤ t then
      startWindow (flushInto st w up) up t e
    else
      if max_batch_size ≤ w.entries.length + 1 then
        flushInto st ⟨w.entries ++ [e], w.firstAt⟩ up
      else
        { st with current := some ⟨w.entries ++ [e], w.firstAt⟩ }

/-- The timer-driven flush of a window still open once its timeout
elapses. -/
def flushPending (st : BatchState) (up : BUpstream) : BatchState :=
  match st.current with
  | none => st
  | some w => flushInto st w up

/-- Admit a timed sequence of entries in order. -/
def enqueueAll (st : BatchState) (up : BUpstream)
    (l : List (Nat × BEntry)) : BatchState :=
  l.foldl (fun s p => enqueue s up p.1 p.2) st

/-- Run a whole timed request sequence: enqueue everything, then let the
final window's timer fire. -/
def processBatch (l : List (Nat × BEntry)) (up : BUpstream) : BatchState :=
  flushPending (enqueueAll batchInit up l) up

lemma flushWindow_map (es : List BEntry) (t0 : Nat) (f : Nat → Nat) :
    flushWindow ⟨es, t0⟩ (fun frags => some (frags.map f)) =
      es.map (fun e => (e.requestId, BResp.api (f e.fragment))) := by
  unfold flushWindow
  rw [splitResponse_some_good _ _ (by simp)]
  induction es with
  | nil => rfl
  | cons e es ih => simpa using ih

lemma enqueueAll_one_window (up : BUpstream) (l : List (Nat × BEntry)) :
    ∀ (acc : List BEntry) (t0 : Nat) (res : List (Nat × BResp))
      (calls : Nat), acc ≠ [] →
      acc.length + l.length ≤ max_batch_size →
      (∀ p ∈ l, p.1 < t0 + batch_timeout) →
      flushPending (enqueueAll ⟨some ⟨acc, t0⟩, res, calls⟩ up l) up =
        ⟨none, res ++ flushWindow ⟨acc ++ l.map Prod.snd, t0⟩ up,
          calls + 1⟩ := by
  induction l with
  | nil =>
    intro acc t0 res calls _ _ _
    simp [enqueueAll, flushPending, flushInto]
  | cons p l' ih =>
    intro acc t0 res calls hne hlen htimes
    obtain ⟨t, e⟩ := p
    have ht : t < t0 + batch_timeout := htimes (t, e) (List.mem_cons_self _ _)
    have ht' : ¬ t0 + batch_timeout ≤ t := not_le.mpr ht
    simp only [enqueueAll, List.foldl_cons]
    show flushPending
      (enqueueAll (enqueue ⟨some ⟨acc, t0⟩, res, calls⟩ up t e) up l') up = _
    unfold enqueue
    simp only [ht', if_false]
    by_cases hfull : max_batch_size ≤ acc.length + 1
    · have hl' : l' = [] := by
        cases l' with
        | nil => rfl
        | cons q l'' =>
          exfalso
          simp only [List.length_cons] at hlen
          omega
      subst hl'
      simp [enqueueAll, flushInto, flushPending, hfull]
    · simp only [hfull, if_false]
      have := ih (acc ++ [e]) t0 res calls (by simp)
        (by simp only [List.length_append, List.length_singleton]
            simp only [List.length_cons] at hlen
            omega)
        (fun q hq => htimes q (List.mem_cons_of_mem _ hq))
      rw [this]
      simp

/-- C7: for every non-empty timed sequence of at most `max_batch_size`
(5) requests to the same service, all accepted within one
`batch_timeout` (2 s) window of the first, the coordinator issues
exactly 1 upstream call, and the combined response is split in input
order so each `requestId` is resolved with its own segment.  The window
flushes on reaching `max_batch_size` entries or when `batch_timeout`
has elapsed since the first entry, whichever comes first. -/
theorem C7_batch_coalescing :
    (∀ (t0 : Nat) (e0 : BEntry) (rest : List (Nat × BEntry))
        (f : Nat → Nat),
        rest.length + 1 ≤ max_batch_size →
        (∀ p ∈ rest, p.1 < t0 + batch_timeout) →
        (processBatch ((t0, e0) :: rest)
            (fun frags => some (frags.map f))).upCalls = 1 ∧
        (processBatch ((t0, e0) :: rest)
            (fun frags => some (frags.map f))).resolutions =
          ((t0, e0) :: rest).map
            (fun p => (p.2.requestId, BResp.api (f p.2.fragment)))) ∧
    (∀ (st : BatchState) (w : BWindow) (up : BUpstream) (t : Nat)
        (e : BEntry), st.current = some w →
        w.firstAt + batch_timeout ≤ t →
        enqueue st up t e = startWindow (flushInto st w up) up t e) ∧
    (∀ (st : BatchState) (w : BWindow) (up : BUpstream) (t : Nat)
        (e : BEntry), st.current = some w →
        t < w.firstAt + batch_timeout →
        w.entries.length + 1 = max_batch_size →
        enqueue st up t e = flushInto st ⟨w.entries ++ [e], w.firstAt⟩ up) := by
  refine ⟨?_, ?_, ?_⟩
  · intro t0 e0 rest f hlen htimes
    have hstart : enqueue batchInit (fun frags => some (frags.map f)) t0 e0 =
        ⟨some ⟨[e0], t0⟩, [], 0⟩ := by
      simp [enqueue, batchInit, startWindow, max_batch_size]
    have hrun := enqueueAll_one_window (fun frags => some (frags.map f)) rest
      [e0] t0 [] 0 (by simp)
      (by simp only [List.length_cons, List.length_nil]; omega) htimes
    have hproc : processBatch ((t0, e0) :: rest)
        (fun frags => some (frags.map f)) =
        ⟨none, [] ++ flushWindow ⟨[e0] ++ rest.map Prod.snd, t0⟩
          (fun frags => some (frags.map f)), 0 + 1⟩ := by
      unfold processBatch enqueueAll
      rw [List.foldl_cons]
      show flushPending (enqueueAll (enqueue batchInit _ t0 e0) _ rest) _ = _
      rw [hstart, hrun]
    rw [hproc]
    refine ⟨rfl, ?_⟩
    rw [flushWindow_map]
    simp [List.map_map, Function.comp]
  · intro st w up t e hcur htime
    unfold enqueue
    rw [hcur]
    simp [htime]
  · intro st w up t e hcur htime hsize
    unfold enqueue
    rw [hcur]
    have ht' : ¬ w.firstAt + batch_timeout ≤ t := not_le.mpr htime
    simp [ht', hsize.symm.le]

/-- Witness for C7: three requests at times 10, 11, 11 produce exactly
one upstream call, each request id resolved with the answer to its own
fragment. -/
theorem C7_batch_coalescing_witness :
    (processBatch [(10, ⟨1, 100⟩), (11, ⟨2, 200⟩), (11, ⟨3, 300⟩)]
        (fun frags => some (frags.map (fun x => x + 1)))).upCalls = 1 ∧
    (processBatch [(10, ⟨1, 100⟩), (11, ⟨2, 200⟩), (11, ⟨3, 300⟩)]
        (fun frags => some (frags.map (fun x => x + 1)))).resolutions =
      [(1, BResp.api 101), (2, BResp.api 201), (3, BResp.api 301)] := by
  have := C7_batch_coalescing.1 10 ⟨1, 100⟩ [(11, ⟨2, 200⟩), (11, ⟨3, 300⟩)]
    (fun x => x + 1) (by decide) (by decide)
  exact ⟨this.1, by rw [this.2]; rfl⟩

lemma map_fst_zip_api (es : List BEntry) (rs : List Nat)
    (h : rs.length = es.length) :
    ((es.zip rs).map (fun p => (p.1.requestId, BResp.api p.2))).map
        Prod.fst = es.map BEntry.requestId := by
  induction es generalizing rs with
  | nil => simp
  | cons e es ih =>
    cases rs with
    | nil => simp at h
    | cons r rs =>
      simp only [List.zip_cons_cons, List.map_cons]
      rw [ih rs (by simpa using h)]

/-- C8: every entry accepted into a window receives exactly one response,
in input order — the resolved request ids are exactly the accepted ones
— and when the combined call fails outright, or its response fails to
parse into one segment per entry, every pending request id in that
window is resolved via the fallback estimator rather than left
unresolved. -/
theorem C8_batch_fallback :
    (∀ (w : BWindow) (up : BUpstream),
        (flushWindow w up).map Prod.fst = w.entries.map BEntry.requestId) ∧
    (∀ w : BWindow,
        flushWindow w (fun _ => none) =
          w.entries.map
            (fun e => (e.requestId, BResp.fallback batchFallbackVal))) ∧
    (∀ (w : BWindow) (rs : List Nat), rs.length ≠ w.entries.length →
        flushWindow w (fun _ => some rs) =
          w.entries.map
            (fun e => (e.requestId, BResp.fallback batchFallbackVal))) := by
  refine ⟨?_, ?_, ?_⟩
  · intro w up
    unfold flushWindow
    cases hcase : up (w.entries.map BEntry.fragment) with
    | none => rw [splitResponse_none]; simp [List.map_map, Function.comp]
    | some rs =>
      by_cases hl : rs.length = w.entries.length
      · rw [splitResponse_some_good _ _ hl]
        exact map_fst_zip_api w.entries rs hl
      · rw [splitResponse_some_bad _ _ hl]
        simp [List.map_map, Function.comp]
  · intro w
    rfl
  · intro w rs hl
    unfold flushWindow
    rw [splitResponse_some_bad _ _ hl]

/-- Witness for C8: a window of two entries whose combined call returns
a response with the wrong arity resolves both request ids via the
fallback. -/
theorem C8_batch_fallback_witness :
    flushWindow ⟨[⟨1, 100⟩, ⟨2, 200⟩], 0⟩ (fun _ => some [7]) =
      [(1, BResp.fallback batchFallbackVal),
       (2, BResp.fallback batchFallbackVal)] := by
  have := C8_batch_fallback.2.2 ⟨[⟨1, 100⟩, ⟨2, 200⟩], 0⟩ [7] (by decide)
  rw [this]
  rfl

/-! ## Fallback estimator and mitigation orchestrator

Modelled from the spec §4.6–§4.7: the orchestrator checks the cache,
then the circuit breaker, then selects a key and attempts the upstream
call, and otherwise delegates to the fallback estimator, which cannot
fail.  The emergency-mode flag activates after 5 consecutive full-chain
failures; while active the cache is read with relaxed expirations and
the network is not attempted even when the circuit is technically
closed.  The upstream is injected as a function of the outbound call
counter, so a stub can be scripted per call. -/

/-- Modelled from the spec: the bounded historical-average estimate
used as the last resort that must never fail. -/
def baseEstimate : Nat := 10

/-- Modelled from the spec: consecutive full-chain failures before
emergency mode activates. -/
def emergThreshold : Nat := 5

/-- The outcome of one outbound upstream call: a people count, or a
failure that may or may not be a rate-limit signal. -/
inductive UpResult
  | ok (count : Nat)
  | err (rateLimited : Bool)
deriving DecidableEq, Repr

/-- A scripted upstream: the result of the n-th outbound call. -/
abbrev Upstream := Nat → UpResult

/-- Modelled from the spec: the Fallback Estimator — the most recent
non-expired cache entry with time-decayed confidence when one exists,
else the bounded estimate with low confidence; always tagged
`source = estimate` and by construction total. -/
def fallbackEstimate (c : MultiCache AnalysisResult) (fp now : Nat) :
    AnalysisResult :=
  match c.get fp now with
  | some (v, _) =>
    { v with source := Source.estimate, confidence_level := Conf.low,
             data_quality := Quality.estimated }
  | none => ⟨baseEstimate, Conf.low, Source.estimate, Quality.estimated, 0⟩

/-- A successful upstream answer as an `AnalysisResult`. -/
def apiResult (n : Nat) : AnalysisResult :=
  ⟨n, Conf.high, Source.api, Quality.excellent, 0⟩

/-- A cache hit as an `AnalysisResult`, reporting the serving tier's
data quality. -/
def cacheResult (v : AnalysisResult) (tier : Tier) : AnalysisResult :=
  { v with source := Source.cache, data_quality := tierQuality tier }

/-- Record an outbound attempt on the selected key's sliding window. -/
def recordKey (r : Rotator) (kid now : Nat) : Rotator :=
  { r with pool := r.pool.map (fun rec =>
      if rec.key_id = kid then recordSend rec now else rec) }

/-- The orchestrator's process-wide state: cache, breaker, key pool,
the consecutive full-chain failure counter, and a counter of outbound
network calls (the stub-upstream call counter of the spec's testable
properties). -/
structure OrchState where
  cache : MultiCache AnalysisResult
  breaker : Breaker
  rotator : Rotator
  emergCount : Nat
  networkCalls : Nat
deriving DecidableEq, Repr

/-- Emergency mode is active once the consecutive full-chain failure
count reaches the threshold. -/
def emergActive (s : OrchState) : Bool :=
  decide (emergThreshold ≤ s.emergCount)

/-- The initial orchestrator state: empty cache, closed breaker, two
configured keys (the documented key pool), no failures. -/
def orchInit : OrchState :=
  ⟨MultiCache.empty, cbInit, ⟨[⟨0, none, []⟩, ⟨1, none, []⟩], 0⟩, 0, 0⟩

/-- Modelled from the spec: `resolve(request) -> AnalysisResult`.
1. check the cache (with relaxed expirations and no network attempt
   while emergency mode is active); 2. check the circuit breaker, OPEN
   short-circuits to the fallback; 3. select a key, none falls back;
   4. attempt the upstream call, success is cached at all tiers and
   reported to breaker and rotator, failure is reported to the breaker
   (and blacklists the key on a rate-limit signal); 5. delegate to the
   fallback estimator.  A full-chain failure increments the emergency
   counter; any served answer resets it. -/
def resolve (s : OrchState) (fp now : Nat) (up : Upstream) :
    AnalysisResult × OrchState :=
  if emergActive s then
    match s.cache.getRelaxed fp now with
    | some (v, tier) => (cacheResult v tier, { s with emergCount := 0 })
    | none =>
      (fallbackEstimate s.cache fp now,
        { s with emergCount := s.emergCount + 1 })
  else
    match s.cache.get fp now with
    | some (v, tier) => (cacheResult v tier, { s with emergCount := 0 })
    | none =>
      if (cbElapse s.breaker now).state = CBState.opened then
        (fallbackEstimate s.cache fp now,
          { s with breaker := cbElapse s.breaker now,
                   emergCount := s.emergCount + 1 })
      else
        match selectKey s.rotator maxPerMinute now with
        | none =>
          (fallbackEstimate s.cache fp now,
            { s with breaker := cbElapse s.breaker now,
                     emergCount := s.emergCount + 1 })
        | some key =>
          match up s.networkCalls with
          | UpResult.ok n =>
            (apiResult n,
              ⟨s.cache.put fp (apiResult n) now,
                cbOnSuccess (cbElapse s.breaker now),
                reportSuccess (recordKey s.rotator key.key_id now) key.key_id,
                0, s.networkCalls + 1⟩)
          | UpResult.err rl =>
            (fallbackEstimate s.cache fp now,
              ⟨s.cache, cbOnFailure (cbElapse s.breaker now) now,
                (if rl then
                  reportRateLimited (recordKey s.rotator key.key_id now)
                    key.key_id now
                 else recordKey s.rotator key.key_id now),
                s.emergCount + 1, s.networkCalls + 1⟩)

/-- Modelled from the spec: crowd level derived from the people
count. -/
inductive CrowdLevel
  | low
  | moderate
  | high
  | critical
deriving DecidableEq, Repr

/-- Modelled from the spec: bucketing of a people count into a crowd
level. -/
def crowdLevelOf (n : Nat) : CrowdLevel :=
  if n < 10 then CrowdLevel.low
  else if n < 30 then CrowdLevel.moderate
  else if n < 60 then CrowdLevel.high
  else CrowdLevel.critical

/-- Modelled from the spec: the caller-facing result shape of
`get_crowd_density`. -/
structure CrowdDensity where
  people_count : Nat
  crowd_level : CrowdLevel
  confidence_level : Conf
  analysis_method : Source
  data_quality : Quality
deriving DecidableEq, Repr

/-- Modelled from the spec: `get_crowd_density`, the caller-facing
surface over `resolve`; it repackages the `AnalysisResult` and can
never raise. -/
def get_crowd_density (s : OrchState) (fp now : Nat) (up : Upstream) :
    CrowdDensity × OrchState :=
  ((fun r => ⟨r.people_count, crowdLevelOf r.people_count,
      r.confidence_level, r.source, r.data_quality⟩)
    (resolve s fp now up).1, (resolve s fp now up).2)

lemma fallbackEstimate_source (c : MultiCache AnalysisResult)
    (fp now : Nat) : (fallbackEstimate c fp now).source = Source.estimate := by
  unfold fallbackEstimate
  cases c.get fp now with
  | none => rfl
  | some p => obtain ⟨v, tier⟩ := p; rfl

/-- With a failing upstream, `resolve` serves either the cache or the
estimator — never the network. -/
lemma resolve_fail_source (s : OrchState) (fp now : Nat) (b : Bool) :
    (resolve s fp now (fun _ => UpResult.err b)).1.source = Source.cache ∨
    (resolve s fp now (fun _ => UpResult.err b)).1.source =
      Source.estimate := by
  unfold resolve
  by_cases hE : emergActive s = true
  · rw [if_pos hE]
    cases s.cache.getRelaxed fp now with
    | some p => obtain ⟨v, tier⟩ := p; left; rfl
    | none => right; exact fallbackEstimate_source _ _ _
  · rw [if_neg hE]
    cases s.cache.get fp now with
    | some p => obtain ⟨v, tier⟩ := p; left; rfl
    | none =>
      by_cases hB : (cbElapse s.breaker now).state = CBState.opened
      · rw [if_pos hB]; right; exact fallbackEstimate_source _ _ _
      · rw [if_neg hB]
        cases selectKey s.rotator maxPerMinute now with
        | none => right; exact fallbackEstimate_source _ _ _
        | some key => right; exact fallbackEstimate_source _ _ _

/-- C1: `resolve` (and the caller-facing `get_crowd_density`) always
returns a result, absorbing every upstream failure: with any upstream
that always fails, the result's source is cache or estimate for every
state, and with an empty cache it is exactly `source = estimate`, the
failure reflected only in the source / data-quality / confidence
fields. -/
theorem C1_always_answers :
    (∀ (s : OrchState) (fp now : Nat) (b : Bool),
        (resolve s fp now (fun _ => UpResult.err b)).1.source =
            Source.cache ∨
        (resolve s fp now (fun _ => UpResult.err b)).1.source =
            Source.estimate) ∧
    (∀ (fp now : Nat) (b : Bool),
        (resolve orchInit fp now (fun _ => UpResult.err b)).1.source =
            Source.estimate ∧
        (resolve orchInit fp now (fun _ => UpResult.err b)).1.confidence_level
            = Conf.low ∧
        (resolve orchInit fp now (fun _ => UpResult.err b)).1.data_quality =
            Quality.estimated) ∧
    (∀ (fp now : Nat) (b : Bool),
        (get_crowd_density orchInit fp now
            (fun _ => UpResult.err b)).1.analysis_method =
          Source.estimate) := by
  have hinit : ∀ (fp now : Nat) (b : Bool),
      (resolve orchInit fp now (fun _ => UpResult.err b)).1 =
        ⟨baseEstimate, Conf.low, Source.estimate, Quality.estimated, 0⟩ := by
    intro fp now b
    unfold resolve
    rw [if_neg (by decide)]
    have hget : orchInit.cache.get fp now = none := rfl
    rw [hget]
    have hcb : cbElapse orchInit.breaker now = orchInit.breaker :=
      cbElapse_closed rfl now
    rw [if_neg (by rw [hcb]; decide)]
    have hsel : selectKey orchInit.rotator maxPerMinute now =
        some ⟨0, none, []⟩ := rfl
    rw [hsel]
    rfl
  refine ⟨resolve_fail_source, ?_, ?_⟩
  · intro fp now b
    rw [hinit fp now b]
    exact ⟨rfl, rfl, rfl⟩
  · intro fp now b
    unfold get_crowd_density
    rw [hinit fp now b]

/-- Witness for C1 at concrete inputs: with the always-failing stub and
the initial (empty-cache) state, the result's source is estimate. -/
theorem C1_always_answers_witness :
    ((resolve orchInit 42 1000 (fun _ => UpResult.err true)).1.source =
        Source.cache ∨
      (resolve orchInit 42 1000 (fun _ => UpResult.err true)).1.source =
        Source.estimate) ∧
    (resolve orchInit 42 1000 (fun _ => UpResult.err true)).1.source =
      Source.estimate :=
  ⟨C1_always_answers.1 orchInit 42 1000 true,
   (C1_always_answers.2.1 42 1000 true).1⟩

/-! ## The example scenario: three rate-limited calls, then a success

Modelled from the spec's example scenario (§8): the upstream stub
rate-limits on calls 1–3 and succeeds on call 4 with
`people_count = 15`.  Four distinct request fingerprints are used at
times 0, 1, 2, 3 so that every call misses the cache, and the key pool
holds four keys so that blacklisting never prevents a call from
reaching the network while the circuit allows it. -/

/-- The scripted upstream of the scenario: outbound calls 0–2
rate-limit, call 3 answers 15. -/
def c4Upstream : Upstream :=
  fun n => if n < 3 then UpResult.err true else UpResult.ok 15

/-- The scenario's initial state: empty cache, closed breaker, four
fresh keys. -/
def c4S0 : OrchState :=
  ⟨MultiCache.empty, cbInit,
    ⟨[⟨0, none, []⟩, ⟨1, none, []⟩, ⟨2, none, []⟩, ⟨3, none, []⟩], 0⟩, 0, 0⟩

/-- Scenario call 1 at time 0. -/
def c4Call1 : AnalysisResult × OrchState := resolve c4S0 101 0 c4Upstream

/-- Scenario call 2 at time 1. -/
def c4Call2 : AnalysisResult × OrchState :=
  resolve c4Call1.2 102 1 c4Upstream

/-- Scenario call 3 at time 2. -/
def c4Call3 : AnalysisResult × OrchState :=
  resolve c4Call2.2 103 2 c4Upstream

/-- Scenario call 4 issued immediately (time 3, inside the cooldown). -/
def c4Call4 : AnalysisResult × OrchState :=
  resolve c4Call3.2 104 3 c4Upstream

/-- Scenario call 4 issued only after the cooldown has elapsed
(time 302 = opened_at 2 + timeout 300). -/
def c4Call4Later : AnalysisResult × OrchState :=
  resolve c4Call3.2 104 302 c4Upstream

/-- C4 fails on this model: in the spec's own scenario the three
consecutive failures reach `max_failures` exactly, so the third failure
transitions the breaker CLOSED→OPEN — it does not remain CLOSED
throughout — and call 4, issued within the cooldown, is short-circuited
to the fallback (source = estimate, no outbound call) instead of
reaching the network and returning `source = api` with
`people_count = 15`. -/
theorem C4_scenario_counterexample :
    c4Call3.2.breaker.state = CBState.opened ∧
    ¬ c4Call3.2.breaker.state = CBState.closed ∧
    c4Call4.1.source = Source.estimate ∧
    ¬ c4Call4.1.source = Source.api ∧
    c4Call4.2.networkCalls = c4Call3.2.networkCalls := by
  decide

/-- C4 amended: calls 1–3 are tagged `source = estimate`; the breaker is
still CLOSED after two failures but the third failure (hitting
`max_failures` = 3 exactly) opens it, so call 4 issued within the
cooldown is short-circuited and tagged `source = estimate`; only a
call 4 issued after the cooldown elapses reaches the network and
returns `source = api` with `people_count = 15`. -/
theorem C4_scenario_amended :
    c4Call1.1.source = Source.estimate ∧
    c4Call2.1.source = Source.estimate ∧
    c4Call3.1.source = Source.estimate ∧
    c4Call2.2.breaker.state = CBState.closed ∧
    c4Call3.2.networkCalls = 3 ∧
    c4Call3.2.breaker.state = CBState.opened ∧
    c4Call4.1.source = Source.estimate ∧
    c4Call4Later.1.source = Source.api ∧
    c4Call4Later.1.people_count = 15 ∧
    c4Call4Later.2.breaker.state = CBState.closed := by
  decide

/-! ## Emergency mode -/

/-- The always-failing (non-rate-limit) upstream used to drive the
emergency-mode activation run. -/
def alwaysErr : Upstream := fun _ => UpResult.err false

/-- State after one full-chain failure from the initial state. -/
def c9s1 : OrchState := (resolve orchInit 201 0 alwaysErr).2

/-- State after two consecutive full-chain failures. -/
def c9s2 : OrchState := (resolve c9s1 202 1 alwaysErr).2

/-- State after three consecutive full-chain failures. -/
def c9s3 : OrchState := (resolve c9s2 203 2 alwaysErr).2

/-- State after four consecutive full-chain failures. -/
def c9s4 : OrchState := (resolve c9s3 204 3 alwaysErr).2

/-- State after five consecutive full-chain failures. -/
def c9s5 : OrchState := (resolve c9s4 205 4 alwaysErr).2

lemma getD_put {α : Type} (c : MultiCache α) (fp : Nat) (v : α)
    (t d1 d2 d3 now : Nat) :
    (c.put fp v t).getD d1 d2 d3 fp now =
      if now < t + d1 then some (v, Tier.fresh)
      else if now < t + d2 then some (v, Tier.medium)
      else if now < t + d3 then some (v, Tier.long)
      else none := by
  unfold MultiCache.getD MultiCache.put
  simp only [levelGet_levelPut_same]
  by_cases h1 : now < t + d1 <;> by_cases h2 : now < t + d2 <;>
    by_cases h3 : now < t + d3 <;> simp [h1, h2, h3]

lemma resolve_emergency_hit {s : OrchState} {fp now : Nat}
    {v : AnalysisResult} {tier : Tier} (hE : emergActive s = true)
    (hget : s.cache.getRelaxed fp now = some (v, tier)) (up : Upstream) :
    resolve s fp now up = (cacheResult v tier, { s with emergCount := 0 }) := by
  unfold resolve
  rw [if_pos hE, hget]

lemma resolve_emergency_miss {s : OrchState} {fp now : Nat}
    (hE : emergActive s = true) (hget : s.cache.getRelaxed fp now = none)
    (up : Upstream) :
    resolve s fp now up =
      (fallbackEstimate s.cache fp now,
        { s with emergCount := s.emergCount + 1 }) := by
  unfold resolve
  rw [if_pos hE, hget]

lemma resolve_open_circuit {s : OrchState} {fp now : Nat}
    (hE : emergActive s = false) (hget : s.cache.get fp now = none)
    (hB : (cbElapse s.breaker now).state = CBState.opened) (up : Upstream) :
    resolve s fp now up =
      (fallbackEstimate s.cache fp now,
        { s with breaker := cbElapse s.breaker now,
                 emergCount := s.emergCount + 1 }) := by
  unfold resolve
  rw [if_neg (by rw [hE]; simp), hget, if_pos hB]

lemma resolve_cache_hit {s : OrchState} {fp now : Nat}
    {v : AnalysisResult} {tier : Tier} (hE : emergActive s = false)
    (hget : s.cache.get fp now = some (v, tier)) (up : Upstream) :
    resolve s fp now up = (cacheResult v tier, { s with emergCount := 0 }) := by
  unfold resolve
  rw [if_neg (by rw [hE]; simp), hget]

lemma resolve_networkCalls_open {s : OrchState} {fp now : Nat}
    (hst : s.breaker.state = CBState.opened)
    (hnow : now < s.breaker.opened_at + cbTimeout) (up : Upstream) :
    (resolve s fp now up).2.networkCalls = s.networkCalls := by
  have hcb : cbElapse s.breaker now = s.breaker := by
    unfold cbElapse
    rw [if_neg (fun hc => absurd hnow (not_lt.mpr hc.2))]
  cases hEb : emergActive s with
  | true =>
    cases hget : s.cache.getRelaxed fp now with
    | some p => obtain ⟨v, tier⟩ := p; rw [resolve_emergency_hit hEb hget up]
    | none => rw [resolve_emergency_miss hEb hget up]
  | false =>
    cases hget : s.cache.get fp now with
    | some p =>
      obtain ⟨v, tier⟩ := p
      rw [resolve_cache_hit hEb hget up]
    | none =>
      rw [resolve_open_circuit hEb hget (by rw [hcb]; exact hst) up]

/-- C2: starting from a fresh breaker, `max_failures` (3) consecutive
failed calls leave the circuit OPEN with `opened_at` the time of the
last failure; every subsequent call issued while
`now < opened_at + timeout` is short-circuited — the breaker reports no
network attempt and stays unchanged — and at the orchestrator level
such a call issues no outbound call: the network call counter is
unchanged and the caller is served from the fallback path (cache or
estimator). -/
theorem C2_circuit_short_circuit :
    (∀ t1 t2 t3 : Nat,
        (cbCall (cbCall (cbCall cbInit t1 false).1 t2 false).1 t3 false).1 =
          ⟨CBState.opened, max_failures, t3⟩ ∧
        (cbCall (cbCall (cbCall cbInit t1 false).1 t2 false).1 t3 false).2 =
          true) ∧
    (∀ (cb : Breaker) (now : Nat) (outcome : Bool),
        cb.state = CBState.opened → now < cb.opened_at + cbTimeout →
        cbCall cb now outcome = (cb, false)) ∧
    (∀ (s : OrchState) (fp now : Nat) (up : Upstream),
        s.breaker.state = CBState.opened →
        now < s.breaker.opened_at + cbTimeout →
        (resolve s fp now up).2.networkCalls = s.networkCalls ∧
        ((resolve s fp now up).1.source = Source.cache ∨
          (resolve s fp now up).1.source = Source.estimate)) := by
  refine ⟨?_, ?_, ?_⟩
  · intro t1 t2 t3
    constructor <;>
      simp [cbCall, cbInit, cbElapse, cbOnFailure, max_failures, cbTimeout]
  · intro cb now outcome hst hnow
    have h1 : cbElapse cb now = cb := by
      unfold cbElapse
      have : ¬ (cb.state = CBState.opened ∧ cb.opened_at + cbTimeout ≤ now) := by
        intro hc
        omega
      simp [this]
    unfold cbCall
    rw [h1, hst]
  · intro s fp now up hst hnow
    refine ⟨resolve_networkCalls_open hst hnow up, ?_⟩
    have hcb : cbElapse s.breaker now = s.breaker := by
      unfold cbElapse
      rw [if_neg (fun hc => absurd hnow (not_lt.mpr hc.2))]
    cases hEb : emergActive s with
    | true =>
      cases hget : s.cache.getRelaxed fp now with
      | some p =>
        obtain ⟨v, tier⟩ := p
        rw [resolve_emergency_hit hEb hget up]
        exact Or.inl rfl
      | none =>
        rw [resolve_emergency_miss hEb hget up]
        exact Or.inr (fallbackEstimate_source _ _ _)
    | false =>
      cases hget : s.cache.get fp now with
      | some p =>
        obtain ⟨v, tier⟩ := p
        rw [resolve_cache_hit hEb hget up]
        exact Or.inl rfl
      | none =>
        rw [resolve_open_circuit hEb hget (by rw [hcb]; exact hst) up]
        exact Or.inr (fallbackEstimate_source _ _ _)

/-- Witness for C2: three consecutive failures at times 0, 1, 2 open
the circuit; a breaker-level call at time 3 (inside the 300 s cooldown)
is short-circuited without touching the network; and an orchestrator
call in that state issues no outbound call. -/
theorem C2_circuit_short_circuit_witness :
    ((cbCall (cbCall (cbCall cbInit 0 false).1 1 false).1 2 false).1 =
        ⟨CBState.opened, max_failures, 2⟩) ∧
    cbCall ⟨CBState.opened, max_failures, 2⟩ 3 true =
      (⟨CBState.opened, max_failures, 2⟩, false) ∧
    (resolve ⟨MultiCache.empty, ⟨CBState.opened, max_failures, 2⟩,
        ⟨[⟨0, none, []⟩], 0⟩, 0, 3⟩ 9 3
        (fun _ => UpResult.ok 15)).2.networkCalls = 3 :=
  ⟨(C2_circuit_short_circuit.1 0 1 2).1,
   C2_circuit_short_circuit.2.1 ⟨CBState.opened, max_failures, 2⟩ 3 true
     rfl (by decide),
   (C2_circuit_short_circuit.2.2 ⟨MultiCache.empty,
       ⟨CBState.opened, max_failures, 2⟩, ⟨[⟨0, none, []⟩], 0⟩, 0, 3⟩ 9 3
       (fun _ => UpResult.ok 15) rfl (by decide)).1⟩

/-- C9: five consecutive full-chain failures from the initial state
activate the emergency flag; while it is active, `resolve` never
attempts the network — the outbound call counter is unchanged for every
state, fingerprint, time and upstream, even when the circuit is
technically CLOSED and a key is available — yet still answers from the
cache or the estimator; the cache is read with relaxed (extended)
expirations, so an entry already expired for every normal tier is still
served (from the long tier) while emergency mode is active; and a
circuit-open full-chain failure increments the consecutive-failure
counter. -/
theorem C9_emergency_no_network :
    (c9s5.emergCount = 5 ∧ emergActive c9s5 = true) ∧
    (∀ (s : OrchState) (fp now : Nat) (up : Upstream),
        emergActive s = true →
        (resolve s fp now up).2.networkCalls = s.networkCalls ∧
        ((resolve s fp now up).1.source = Source.cache ∨
          (resolve s fp now up).1.source = Source.estimate)) ∧
    (∀ (c : MultiCache AnalysisResult) (fp : Nat) (v : AnalysisResult)
        (t now ec nc : Nat) (br : Breaker) (rot : Rotator) (up : Upstream),
        emergThreshold ≤ ec → t + longDuration ≤ now →
        now < t + relaxedLong →
        (resolve ⟨c.put fp v t, br, rot, ec, nc⟩ fp now up).1 =
          cacheResult v Tier.long ∧
        (c.put fp v t).get fp now = none) ∧
    (∀ (s : OrchState) (fp now : Nat) (up : Upstream),
        emergActive s = false → s.cache.get fp now = none →
        (cbElapse s.breaker now).state = CBState.opened →
        (resolve s fp now up).2.emergCount = s.emergCount + 1) := by
  refine ⟨⟨by decide, by decide⟩, ?_, ?_, ?_⟩
  · intro s fp now up hE
    cases hget : s.cache.getRelaxed fp now with
    | some p =>
      obtain ⟨v, tier⟩ := p
      rw [resolve_emergency_hit hE hget up]
      exact ⟨rfl, Or.inl rfl⟩
    | none =>
      rw [resolve_emergency_miss hE hget up]
      exact ⟨rfl, Or.inr (fallbackEstimate_source _ _ _)⟩
  · intro c fp v t now ec nc br rot up h1 h2 h3
    have hE : emergActive ⟨c.put fp v t, br, rot, ec, nc⟩ = true := by
      simp only [emergActive, decide_eq_true_eq]
      exact h1
    have e1 : ¬ now < t + relaxedFresh := by
      unfold relaxedFresh
      unfold longDuration at h2
      omega
    have e2 : ¬ now < t + relaxedMedium := by
      unfold relaxedMedium
      unfold longDuration at h2
      omega
    have hget : (c.put fp v t).getRelaxed fp now = some (v, Tier.long) := by
      rw [MultiCache.getRelaxed, getD_put, if_neg e1, if_neg e2, if_pos h3]
    constructor
    · rw [resolve_emergency_hit hE hget up]
    · rw [MultiCache.get, getD_put]
      have n1 : ¬ now < t + freshDuration := by
        unfold freshDuration
        unfold longDuration at h2
        omega
      have n2 : ¬ now < t + mediumDuration := by
        unfold mediumDuration
        unfold longDuration at h2
        omega
      have n3 : ¬ now < t + longDuration := not_lt.mpr h2
      rw [if_neg n1, if_neg n2, if_neg n3]
  · intro s fp now up hE hget hB
    rw [resolve_open_circuit hE hget hB up]

/-- Witness for C9 at concrete inputs: with the failure counter at 5, a
closed breaker and an eligible key, a call backed by a succeeding
upstream still issues no outbound call; and a cache entry written at
time 0 and read at time 3600 (expired for every normal tier) is served
from the relaxed long tier. -/
theorem C9_emergency_no_network_witness :
    ((resolve ⟨MultiCache.empty, cbInit, ⟨[⟨0, none, []⟩], 0⟩, 5, 0⟩ 7 10
        (fun _ => UpResult.ok 99)).2.networkCalls = 0) ∧
    ((resolve ⟨MultiCache.empty.put 1 (apiResult 20) 0, cbInit,
        ⟨[⟨0, none, []⟩], 0⟩, 5, 0⟩ 1 3600
        (fun _ => UpResult.ok 99)).1 = cacheResult (apiResult 20) Tier.long) :=
  ⟨(C9_emergency_no_network.2.1
      ⟨MultiCache.empty, cbInit, ⟨[⟨0, none, []⟩], 0⟩, 5, 0⟩ 7 10
      (fun _ => UpResult.ok 99) (by decide)).1,
   (C9_emergency_no_network.2.2.1 MultiCache.empty 1 (apiResult 20) 0 3600
      5 0 cbInit ⟨[⟨0, none, []⟩], 0⟩ (fun _ => UpResult.ok 99)
      (by decide) (by decide) (by decide)).1⟩

/-! ## Local computer-vision fallback

Embedded from the `estimate_people_count` snippet reproduced in
`RATE_LIMIT_MITIGATION.md`:

    people_contours = [c for c in contours if 500 < cv2.contourArea(c) < 5000]
    return max(1, len(people_contours))

Contour areas are modelled as exact rationals; OpenCV's contour
extraction is the external black box producing them. -/

/-- The contours whose area lies strictly between 500 and 5000. -/
def people_contours (areas : List ℚ) : List ℚ :=
  areas.filter (fun a => decide (500 < a) && decide (a < 5000))

/-- `estimate_people_count`: the person-shaped contour count, floored
at one. -/
def estimate_people_count (areas : List ℚ) : Nat :=
  max 1 (people_contours areas).length

/-- C10: `estimate_people_count` always reports at least one person:
it counts contours of area strictly between 500 and 5000 and returns
the maximum of 1 and that count, so an image with no person-shaped
contour is still reported as containing one person, and otherwise the
contour count itself is returned. -/
theorem C10_estimate_floor_one :
    (∀ areas : List ℚ, 1 ≤ estimate_people_count areas) ∧
    (∀ areas : List ℚ,
        estimate_people_count areas = max 1 (people_contours areas).length) ∧
    (∀ areas : List ℚ, (∀ a ∈ areas, ¬ (500 < a ∧ a < 5000)) →
        estimate_people_count areas = 1) ∧
    (∀ areas : List ℚ, 1 ≤ (people_contours areas).length →
        estimate_people_count areas = (people_contours areas).length) := by
  refine ⟨?_, ?_, ?_, ?_⟩
  · intro areas
    exact le_max_left 1 _
  · intro areas
    rfl
  · intro areas h
    have hnil : people_contours areas = [] := by
      unfold people_contours
      rw [List.filter_eq_nil_iff]
      intro a ha
      have := h a ha
      simp only [Bool.and_eq_true, decide_eq_true_eq]
      tauto
    simp [estimate_people_count, hnil]
  · intro areas h
    unfold estimate_people_count
    omega

/-- Witness for C10 at concrete inputs: an image with no person-shaped
contour (areas 100 and 9000) is reported as one person, and one with
two person-shaped contours (600, 4000) as two. -/
theorem C10_estimate_floor_one_witness :
    estimate_people_count [(100 : ℚ), 9000] = 1 ∧
    estimate_people_count [(600 : ℚ), 4000, 9000] =
      (people_contours [(600 : ℚ), 4000, 9000]).length :=
  ⟨C10_estimate_floor_one.2.2.1 [(100 : ℚ), 9000] (by decide),
   C10_estimate_floor_one.2.2.2 [(600 : ℚ), 4000, 9000] (by decide)⟩

end Drishti
